import Mathlib

/-!
Verification of the session lifecycle and intensity-driven parameter
derivation engine of the lsd-mcp repository.

The definitions below are shallow embeddings of the TypeScript source:
JavaScript numbers are modelled as rationals (exactly representable in all
the arithmetic the embedded code performs) except for the sigmoid intensity
function, which uses the real exponential and is modelled over the reals.
Timestamps are rationals (epoch milliseconds).  JavaScript Map objects are
modelled as association lists with Map.set replace-or-append semantics.
-/

set_option maxRecDepth 4000

-- ============================================================================
-- Numeric helpers
-- ============================================================================

/-- JavaScript Math.round (round half toward positive infinity), on ℚ. -/
def jsRound (q : ℚ) : ℚ := (⌊q + 1/2⌋ : ℤ)

/-- The TypeScript idiom Math.round(x * 100) / 100 (round to 2 decimals), on ℚ. -/
def round2 (q : ℚ) : ℚ := jsRound (q * 100) / 100

/-- JavaScript Math.round on ℝ, for the sigmoid intensity function. -/
noncomputable def jsRoundR (x : ℝ) : ℝ := (⌊x + 1/2⌋ : ℤ)

/-- Math.round(x * 100) / 100 on ℝ. -/
noncomputable def round2R (x : ℝ) : ℝ := jsRoundR (x * 100) / 100

-- ============================================================================
-- Sigmoid intensity function (src/src/session.ts, calculateIntensity)
-- ============================================================================

/-- Embedded from src/src/session.ts: the constant SIGMOID_STEEPNESS. -/
def SIGMOID_STEEPNESS : ℝ := 0.015

/-- Embedded from src/src/session.ts: the constant SIGMOID_MIDPOINT. -/
def SIGMOID_MIDPOINT : ℝ := 150

/-- Embedded from src/src/session.ts, calculateIntensity:
1 / (1 + Math.exp(-SIGMOID_STEEPNESS * (dose_um - SIGMOID_MIDPOINT))),
rounded to two decimal places. -/
noncomputable def calculateIntensity (dose_um : ℝ) : ℝ :=
  round2R (1 / (1 + Real.exp (-SIGMOID_STEEPNESS * (dose_um - SIGMOID_MIDPOINT))))

/-- Modelled from the spec words (section 4.1): intensity = 1 / (1 + e^(-k (dose - m)))
with k = 0.015 and m = 150, output rounded to two decimal places.  Used to compare
the spec formula with the source formula. -/
noncomputable def intensitySpec (dose : ℝ) : ℝ :=
  round2R (1 / (1 + Real.exp (-(0.015) * (dose - 150))))

-- ============================================================================
-- Mode knob functions (parameter derivation engine)
-- ============================================================================

/-- Embedded from src/src/modes/prismatic.ts, calculatePerspectiveCount.
The requested argument models the optional perspective_count override. -/
def calculatePerspectiveCount (intensity : ℚ) (requested : Option ℚ) : ℚ :=
  let baseCount : ℚ :=
    if intensity < 0.20 then 2
    else if intensity < 0.40 then 3
    else if intensity < 0.60 then 4
    else if intensity < 0.80 then 5
    else 6
  match requested with
  | some r => max 2 (min 10 r)
  | none => baseCount

/-- Embedded from src/src/modes/patterns.ts, calculateFocusAllocation. -/
def calculateFocusAllocation (intensity : ℚ) (requested : Option ℚ) : ℚ :=
  let baseFocus : ℚ :=
    if intensity < 0.20 then 0.15
    else if intensity < 0.40 then 0.30
    else if intensity < 0.60 then 0.50
    else if intensity < 0.80 then 0.75
    else 0.90
  match requested with
  | some r => max baseFocus (min 1 r)
  | none => baseFocus

/-- Embedded from src/src/modes/semantic-drift.ts, calculateEffectiveAnchorStrength. -/
def calculateEffectiveAnchorStrength (intensity : ℚ) (requested : Option ℚ) : ℚ :=
  let baseAnchor : ℚ := max 0.1 (1 - intensity)
  match requested with
  | some r => min baseAnchor (max 0.1 r)
  | none => round2 baseAnchor

/-- Embedded from src/src/modes/patterns.ts, getElaborationDepth. -/
def getElaborationDepth (intensity : ℚ) : String :=
  if intensity < 0.25 then "minimal"
  else if intensity < 0.50 then "moderate"
  else if intensity < 0.80 then "extensive"
  else "total"

/-- Embedded from src/src/modes/patterns.ts, getApopheniaTolerance. -/
def getApopheniaTolerance (intensity : ℚ) : String :=
  if intensity < 0.30 then "low"
  else if intensity < 0.60 then "moderate"
  else if intensity < 0.85 then "high"
  else "extreme"

/-- Embedded from src/src/modes/synesthetic.ts, getForbiddenAbstractions. -/
def getForbiddenAbstractions (intensity : ℚ) : Option (List String) :=
  if intensity < 0.45 then none
  else if intensity < 0.70 then
    some ["therefore", "implies", "consequently", "hence"]
  else
    some ["because", "therefore", "implies", "consequently", "hence",
          "abstract", "concept", "idea", "theory", "principle"]

/-- Embedded from src/src/modes/boundaries.ts, getSuspendedRules. -/
def getSuspendedRules (intensity : ℚ) : Option (List String) :=
  if intensity < 0.65 then none
  else if intensity < 0.85 then
    some ["Animate/inanimate distinction", "Abstract/concrete distinction"]
  else
    some ["Animate/inanimate distinction", "Abstract/concrete distinction",
          "Process/object distinction", "Living/non-living distinction",
          "Observer/observed distinction", "Cause/effect temporal ordering"]

/-- Embedded from src/unnamed/part_003 (novelty bias mode), getNoveltyThreshold. -/
def getNoveltyThreshold (intensity : ℚ) : String :=
  if intensity < 0.20 then "unusual"
  else if intensity < 0.40 then "untested"
  else if intensity < 0.60 then "speculative"
  else if intensity < 0.80 then "speculative"
  else "radical"

/-- Tier order of the pattern_elaboration_depth labels. -/
def elaborationRank (s : String) : ℕ :=
  if s = "minimal" then 0 else if s = "moderate" then 1
  else if s = "extensive" then 2 else 3

/-- Tier order of the apophenia_tolerance labels. -/
def apopheniaRank (s : String) : ℕ :=
  if s = "low" then 0 else if s = "moderate" then 1
  else if s = "high" then 2 else 3

/-- Tier order of the novelty threshold labels. -/
def noveltyRank (s : String) : ℕ :=
  if s = "unusual" then 0 else if s = "untested" then 1
  else if s = "speculative" then 2 else 3

/-- Severity order on optional gated lists: absent counts as the empty set,
and a list is at most as severe as any list containing all its elements. -/
def optSubset (a b : Option (List String)) : Prop :=
  ∀ x ∈ a.getD [], x ∈ b.getD []

instance (a b : Option (List String)) : Decidable (optSubset a b) := by
  unfold optSubset; infer_instance

-- ============================================================================
-- Session data model (src/src/types.ts)
-- ============================================================================

/-- Embedded from src/src/types.ts: the status enum of a session. -/
inductive SessionStatus where
  | initialized
  | active
  | expired
deriving Repr, DecidableEq

/-- Embedded from src/src/types.ts: the Session interface.  Timestamps are
epoch milliseconds (the numeric value of the Date the ISO string denotes). -/
structure Session where
  session_id : String
  dose_um : ℚ
  intensity_coefficient : ℚ
  session_duration_hours : ℚ
  created_at : ℤ
  expires_at : ℤ
  user_id : String
  safety_anchors : List String
  current_mode : Option String
  status : SessionStatus
deriving Repr, DecidableEq

/-- A Partial Session value, as passed to SessionStorage.update: each field
is present (some) or absent (none). -/
structure SessionUpdates where
  dose_um : Option ℚ := none
  intensity_coefficient : Option ℚ := none
  session_duration_hours : Option ℚ := none
  created_at : Option ℤ := none
  expires_at : Option ℤ := none
  user_id : Option String := none
  safety_anchors : Option (List String) := none
  current_mode : Option (Option String) := none
  status : Option SessionStatus := none
deriving Repr, DecidableEq

/-- Object.assign(session, updates): every supplied field overwrites. -/
def applyUpdates (s : Session) (u : SessionUpdates) : Session :=
  { session_id := s.session_id
    dose_um := u.dose_um.getD s.dose_um
    intensity_coefficient := u.intensity_coefficient.getD s.intensity_coefficient
    session_duration_hours := u.session_duration_hours.getD s.session_duration_hours
    created_at := u.created_at.getD s.created_at
    expires_at := u.expires_at.getD s.expires_at
    user_id := u.user_id.getD s.user_id
    safety_anchors := u.safety_anchors.getD s.safety_anchors
    current_mode := u.current_mode.getD s.current_mode
    status := u.status.getD s.status }

-- ============================================================================
-- Database rows (src/unnamed/part_001 schema, src/src/db/session-storage.ts)
-- ============================================================================

/-- Embedded from the sessions table schema (src/unnamed/part_001) as read and
written by src/src/db/session-storage.ts. -/
structure DbRow where
  id : String
  userId : String
  doseUm : ℚ
  intensityCoefficient : ℚ
  safetyAnchors : List String
  currentMode : Option String
  status : SessionStatus
  createdAt : ℤ
  expiresAt : ℤ
deriving Repr, DecidableEq

/-- Embedded from src/src/db/session-storage.ts, appToDbSession. -/
def appToDbSession (s : Session) : DbRow :=
  { id := s.session_id
    userId := s.user_id
    doseUm := s.dose_um
    intensityCoefficient := s.intensity_coefficient
    safetyAnchors := s.safety_anchors
    currentMode := s.current_mode
    status := s.status
    createdAt := s.created_at
    expiresAt := s.expires_at }

/-- Embedded from src/src/db/session-storage.ts, dbToAppSession
(session_duration_hours is the fixed value 8). -/
def dbToAppSession (r : DbRow) : Session :=
  { session_id := r.id
    dose_um := r.doseUm
    intensity_coefficient := r.intensityCoefficient
    session_duration_hours := 8
    created_at := r.createdAt
    expires_at := r.expiresAt
    user_id := r.userId
    safety_anchors := r.safetyAnchors
    current_mode := r.currentMode
    status := r.status }

/-- Embedded from src/src/db/session-storage.ts, RemoteSessionStorage.update:
only dose_um, intensity_coefficient, current_mode, status and safety_anchors
are mapped onto the row; other fields of the partial are ignored. -/
def applyDbUpdates (r : DbRow) (u : SessionUpdates) : DbRow :=
  { r with
    doseUm := u.dose_um.getD r.doseUm
    intensityCoefficient := u.intensity_coefficient.getD r.intensityCoefficient
    currentMode := u.current_mode.getD r.currentMode
    status := u.status.getD r.status
    safetyAnchors := u.safety_anchors.getD r.safetyAnchors }

-- ============================================================================
-- Association lists with JavaScript Map semantics
-- ============================================================================

/-- Map.get: the value of the first entry with the given key. -/
def lookupA {α : Type} (l : List (String × α)) (k : String) : Option α :=
  match l with
  | [] => none
  | (k₁, v) :: t => if k₁ = k then some v else lookupA t k

/-- Map.set: replace the first entry with the given key, or append. -/
def setA {α : Type} (l : List (String × α)) (k : String) (v : α) : List (String × α) :=
  match l with
  | [] => [(k, v)]
  | (k₁, v₁) :: t => if k₁ = k then (k, v) :: t else (k₁, v₁) :: setA t k v

/-- Map.delete: remove the first entry with the given key. -/
def eraseA {α : Type} (l : List (String × α)) (k : String) : List (String × α) :=
  match l with
  | [] => []
  | (k₁, v₁) :: t => if k₁ = k then t else (k₁, v₁) :: eraseA t k

/-- The keys of an association list. -/
def keysA {α : Type} (l : List (String × α)) : List String := l.map Prod.fst

-- ============================================================================
-- Combined storage state (src/src/db/session-storage.ts + src/src/session.ts)
-- ============================================================================

/-- The state the async session code operates on: the backend selection flag
(isRemoteMode), the ambient request user (currentUserId in src/src/session.ts),
the in-memory maps of LocalSessionStorage, the Postgres rows of
RemoteSessionStorage (in insertion order), a counter feeding randomUUID,
and the current wall clock (epoch ms), held fixed during a call. -/
structure Store where
  remoteMode : Bool
  currentUserId : Option String
  localSessions : List (String × Session)
  localActiveId : Option String
  dbRows : List DbRow
  nextId : ℕ
  now : ℤ
deriving Repr, DecidableEq

/-- The truthiness of the nullable currentUserId string: null and the empty
string are falsy. -/
def truthyUser (o : Option String) : Option String :=
  match o with
  | some u => if u = "" then none else some u
  | none => none

/-- Embedded from src/src/db/session-storage.ts: save of LocalSessionStorage
(set the id map, point the active id at the saved session) and of
RemoteSessionStorage (insert a row). -/
def storageSave (s : Session) (σ : Store) : Store :=
  if σ.remoteMode then
    { σ with dbRows := σ.dbRows ++ [appToDbSession s] }
  else
    { σ with localSessions := setA σ.localSessions s.session_id s,
             localActiveId := some s.session_id }

/-- Embedded from src/src/db/session-storage.ts: getActive.
LocalSessionStorage resolves the active pointer with expiry-on-read;
RemoteSessionStorage.getActive always returns null. -/
def storageGetActive (σ : Store) : Option Session × Store :=
  if σ.remoteMode then (none, σ)
  else
    match σ.localActiveId with
    | none => (none, σ)
    | some id =>
      match lookupA σ.localSessions id with
      | none => (none, { σ with localActiveId := none })
      | some s =>
        if σ.now > s.expires_at then
          (none, { σ with
                   localSessions := setA σ.localSessions id { s with status := .expired },
                   localActiveId := none })
        else (some s, σ)

/-- Embedded from src/src/db/session-storage.ts: update of both backends.
LocalSessionStorage merges the partial into the stored object
(unknown id is a no-op); RemoteSessionStorage maps the supported fields
onto every row whose id matches. -/
def storageUpdate (id : String) (u : SessionUpdates) (σ : Store) : Store :=
  if σ.remoteMode then
    { σ with dbRows := σ.dbRows.map (fun r => if r.id = id then applyDbUpdates r u else r) }
  else
    match lookupA σ.localSessions id with
    | some s => { σ with localSessions := setA σ.localSessions id (applyUpdates s u) }
    | none => σ

/-- The SELECT of getActiveSessionForUser (src/src/db/session-storage.ts):
ORDER BY createdAt (ascending) LIMIT 1, modelled as the first row carrying
the minimal createdAt value. -/
def earliestRow (rows : List DbRow) : Option DbRow :=
  rows.foldl
    (fun acc r =>
      match acc with
      | none => some r
      | some b => if r.createdAt < b.createdAt then some r else some b)
    none

/-- Embedded from src/src/db/session-storage.ts, getActiveSessionForUser:
in local mode it falls back to storage.getActive; in remote mode it selects
the row for the user with status initialized ordered by createdAt ascending,
and if that row has expired it flips its status to expired and returns none. -/
def getActiveSessionForUser (u : String) (σ : Store) : Option Session × Store :=
  if σ.remoteMode = false then storageGetActive σ
  else
    match earliestRow (σ.dbRows.filter
        (fun r => decide (r.userId = u ∧ r.status = .initialized))) with
    | none => (none, σ)
    | some r =>
      if r.expiresAt < σ.now then
        let rows := σ.dbRows.map
          (fun q => if q.id = r.id then { q with status := .expired } else q)
        (none, { σ with dbRows := rows })
      else (some (dbToAppSession r), σ)

/-- Embedded from src/src/session.ts, getActiveSession: with a truthy
currentUserId resolve per user, otherwise through storage.getActive. -/
def getActiveSession (σ : Store) : Option Session × Store :=
  match truthyUser σ.currentUserId with
  | some u => getActiveSessionForUser u σ
  | none => storageGetActive σ

/-- Embedded from src/src/types.ts: SESSION_DURATION_HOURS * 60 * 60 * 1000
milliseconds (8 hours). -/
def SESSION_DURATION_MS : ℤ := 8 * 60 * 60 * 1000

/-- Embedded from src/src/session.ts, getHighDoseWarning (threshold 400). -/
def getHighDoseWarning (dose_um : ℚ) : Option String :=
  if dose_um ≥ 400 then
    some "Extreme dose territory (>400um). Coherence may be significantly reduced."
  else none

/-- Embedded from src/src/session.ts, createSession.  The functions calcI and
idGen stand for calculateIntensity on JavaScript floats and randomUUID; the
lifecycle claims hold for every choice of both.  Returns the stored session
together with the new store state. -/
def createSession (calcI : ℚ → ℚ) (idGen : ℕ → String)
    (dose_um : ℚ) (user_id : String) (safety_anchors : List String)
    (σ : Store) : Session × Store :=
  let s : Session :=
    { session_id := idGen σ.nextId
      dose_um := dose_um
      intensity_coefficient := calcI dose_um
      session_duration_hours := 8
      created_at := σ.now
      expires_at := σ.now + SESSION_DURATION_MS
      user_id := user_id
      safety_anchors := safety_anchors
      current_mode := none
      status := .initialized }
  (s, storageSave s { σ with nextId := σ.nextId + 1 })

/-- The user id the auto-creating paths pass: currentUserId || "auto-initialized". -/
def autoUser (σ : Store) : String :=
  match truthyUser σ.currentUserId with
  | some u => u
  | none => "auto-initialized"

/-- Embedded from src/src/session.ts, ensureSession: resolve the active
session; if none, create one at the default dose (50) with the default
safety anchors and re-resolve; if still none, throw. -/
def ensureSession (calcI : ℚ → ℚ) (idGen : ℕ → String)
    (σ : Store) : Except String (Session × Store) :=
  match getActiveSession σ with
  | (some s, σ₁) => .ok (s, σ₁)
  | (none, σ₁) =>
    let σ₂ := (createSession calcI idGen 50 (autoUser σ₁) ["factual_accuracy"] σ₁).2
    match getActiveSession σ₂ with
    | (some s, σ₃) => .ok (s, σ₃)
    | (none, _) => .error "Failed to create session"

/-- Embedded from src/src/types.ts: the AdjustDoseResponse shape (the
dose_effects_by_range bundle is a pure function of new_intensity and is
not needed by the claims). -/
structure AdjustDoseResponse where
  session_id : String
  previous_dose_um : ℚ
  new_dose_um : ℚ
  previous_intensity : ℚ
  new_intensity : ℚ
  warning : Option String
deriving Repr, DecidableEq

/-- Embedded from src/src/session.ts, adjustDose.  The source performs an
unguarded recursive self-call when no active session resolves; the fuel
argument makes the recursion structural, with none meaning that the source
recursion has not terminated within the given number of calls. -/
def adjustDose (calcI : ℚ → ℚ) (idGen : ℕ → String)
    (fuel : ℕ) (new_dose_um : ℚ) (σ : Store) :
    Option (AdjustDoseResponse × Store) :=
  match fuel with
  | 0 => none
  | fuel + 1 =>
    match getActiveSession σ with
    | (none, σ₁) =>
      let σ₂ := (createSession calcI idGen 50 (autoUser σ₁) [] σ₁).2
      adjustDose calcI idGen fuel new_dose_um σ₂
    | (some s, σ₁) =>
      let new_intensity := calcI new_dose_um
      let σ₂ := storageUpdate s.session_id
        { dose_um := some new_dose_um, intensity_coefficient := some new_intensity } σ₁
      some ({ session_id := s.session_id
              previous_dose_um := s.dose_um
              new_dose_um := new_dose_um
              previous_intensity := s.intensity_coefficient
              new_intensity := new_intensity
              warning := getHighDoseWarning new_dose_um }, σ₂)

-- ============================================================================
-- clearExpired (src/src/db/session-storage.ts, both backends)
-- ============================================================================

/-- Embedded from src/src/db/session-storage.ts,
LocalSessionStorage.clearExpired: iterate the map in order, delete every
session whose expires_at is before now, count the deletions. -/
def localClearExpired (now : ℤ) (l : List (String × Session)) :
    ℕ × List (String × Session) :=
  l.foldl
    (fun acc e =>
      if e.2.expires_at < now then (acc.1 + 1, acc.2) else (acc.1, acc.2 ++ [e]))
    (0, [])

/-- Embedded from src/src/db/session-storage.ts,
RemoteSessionStorage.clearExpired: DELETE WHERE expiresAt < now, then
return 0 (the source comments that the driver does not report a count and
approximates it). -/
def remoteClearExpired (now : ℤ) (rows : List DbRow) : ℕ × List DbRow :=
  (0, rows.filter (fun r => decide (¬ r.expiresAt < now)))

-- ============================================================================
-- Owner-indexed local storage (src/unnamed/part_002, LocalSessionStorage)
-- ============================================================================

/-- The state of the owner-indexed in-memory backend of src/unnamed/part_002:
the id map, the single active pointer, the userId to sessionId index, and
the wall clock. -/
structure LStore where
  sessions : List (String × Session)
  activeId : Option String
  userIndex : List (String × String)
  now : ℤ
deriving Repr, DecidableEq

namespace LocalStore

/-- Embedded from src/unnamed/part_002, LocalSessionStorage.save: set the id
map, point the active id, and index the owner when user_id is truthy. -/
def save (s : Session) (σ : LStore) : LStore :=
  { σ with
    sessions := setA σ.sessions s.session_id s
    activeId := some s.session_id
    userIndex :=
      if s.user_id = "" then σ.userIndex
      else setA σ.userIndex s.user_id s.session_id }

/-- Embedded from src/unnamed/part_002, LocalSessionStorage.getActiveForUser:
resolve through the owner index, repairing a dangling index entry, with
expiry-on-read. -/
def getActiveForUser (u : String) (σ : LStore) : Option Session × LStore :=
  match lookupA σ.userIndex u with
  | none => (none, σ)
  | some id =>
    match lookupA σ.sessions id with
    | none => (none, { σ with userIndex := eraseA σ.userIndex u })
    | some s =>
      if σ.now > s.expires_at then
        (none, { σ with
                 sessions := setA σ.sessions id { s with status := .expired }
                 userIndex := eraseA σ.userIndex u })
      else (some s, σ)

/-- Embedded from src/unnamed/part_002, LocalSessionStorage.setActive. -/
def setActive (id : String) (σ : LStore) : LStore :=
  { σ with activeId := some id }

/-- Embedded from src/unnamed/part_002, LocalSessionStorage.update:
Object.assign into the stored session; unknown id is a no-op. -/
def update (id : String) (u : SessionUpdates) (σ : LStore) : LStore :=
  match lookupA σ.sessions id with
  | some s => { σ with sessions := setA σ.sessions id (applyUpdates s u) }
  | none => σ

/-- Embedded from src/unnamed/part_002, LocalSessionStorage.delete: drop the
owner index entry of the stored session (when its user_id is truthy), drop
the id map entry, and clear the active pointer when it pointed here. -/
def delete (id : String) (σ : LStore) : LStore :=
  let σ₁ :=
    match lookupA σ.sessions id with
    | some s =>
      if s.user_id = "" then σ
      else { σ with userIndex := eraseA σ.userIndex s.user_id }
    | none => σ
  let σ₂ := { σ₁ with sessions := eraseA σ₁.sessions id }
  if σ₂.activeId = some id then { σ₂ with activeId := none } else σ₂

/-- Embedded from src/unnamed/part_002, LocalSessionStorage.clearExpired:
delete every expired session from the id map together with its owner index
entry (when truthy), counting deletions.  Iteration with in-place deletion
amounts to keeping the non-expired entries and folding the index deletions
over the expired ones. -/
def clearExpired (σ : LStore) : ℕ × LStore :=
  let expired := σ.sessions.filter (fun e => decide (e.2.expires_at < σ.now))
  let kept := σ.sessions.filter (fun e => decide (¬ e.2.expires_at < σ.now))
  let idx := expired.foldl
    (fun ix e => if e.2.user_id = "" then ix else eraseA ix e.2.user_id)
    σ.userIndex
  (expired.length, { σ with sessions := kept, userIndex := idx })

end LocalStore

/-- The invariant claimed of the owner index: every index entry refers to a
session present in the id map. -/
def IndexInv (σ : LStore) : Prop :=
  ∀ p ∈ σ.userIndex, (lookupA σ.sessions p.2).isSome

instance (σ : LStore) : Decidable (IndexInv σ) := by
  unfold IndexInv; infer_instance

/-- The strengthened, inductive invariant: both maps have distinct keys, and
every owner index entry has a truthy owner key and points to a stored session
owned by exactly that owner. -/
def IndexInvStrong (σ : LStore) : Prop :=
  (keysA σ.sessions).Nodup ∧ (keysA σ.userIndex).Nodup ∧
  ∀ p ∈ σ.userIndex,
    p.1 ≠ "" ∧ (lookupA σ.sessions p.2).map Session.user_id = some p.1

instance (σ : LStore) : Decidable (IndexInvStrong σ) := by
  unfold IndexInvStrong; infer_instance


-- ============================================================================
-- Frame property of dose adjustment (C9)
-- ============================================================================

/-- The frame property of a dose adjustment that found the active session s in
store σ: the call returns the response echoing the previous dose and
intensity of s, and the resulting store differs from σ only in the dose_um
and intensity_coefficient of the record stored under the id of s (in the id
map of the local backend, or in the matching rows of the remote backend);
every other field of that record (created_at, expires_at, user_id,
safety_anchors, current_mode, status) and every other record, the active
pointer, the clock and the id counter are unchanged.  In particular the
expiry of the session is neither extended nor reset. -/
def adjustDoseFrame (calcI : ℚ → ℚ) (idGen : ℕ → String)
    (fuel : ℕ) (σ : Store) (d : ℚ) (s : Session) : Prop :=
  ∃ resp σ₂,
    adjustDose calcI idGen (fuel + 1) d σ = some (resp, σ₂) ∧
    resp.session_id = s.session_id ∧
    resp.previous_dose_um = s.dose_um ∧
    resp.previous_intensity = s.intensity_coefficient ∧
    resp.new_dose_um = d ∧
    resp.new_intensity = calcI d ∧
    σ₂.remoteMode = σ.remoteMode ∧
    σ₂.currentUserId = σ.currentUserId ∧
    σ₂.localActiveId = σ.localActiveId ∧
    σ₂.nextId = σ.nextId ∧
    σ₂.now = σ.now ∧
    (σ.remoteMode = false →
      σ₂.dbRows = σ.dbRows ∧
      (∀ k, k ≠ s.session_id → lookupA σ₂.localSessions k = lookupA σ.localSessions k) ∧
      (∀ t, lookupA σ.localSessions s.session_id = some t →
        lookupA σ₂.localSessions s.session_id =
          some { t with dose_um := d, intensity_coefficient := calcI d })) ∧
    (σ.remoteMode = true →
      σ₂.localSessions = σ.localSessions ∧
      σ₂.dbRows = σ.dbRows.map (fun row =>
        if row.id = s.session_id then
          { row with doseUm := d, intensityCoefficient := calcI d }
        else row))

-- ============================================================================
-- Invariant preservation statement for the owner-indexed storage (C10)
-- ============================================================================

/-- Precondition on save: re-saving an existing session id never changes its
owner.  The application always saves under fresh random UUIDs, for which the
condition holds vacuously. -/
def saveOwnerConsistent (s : Session) (σ : LStore) : Prop :=
  ∀ old, lookupA σ.sessions s.session_id = some old → old.user_id = s.user_id

/-- Precondition on update, from the claim: an update never changes the
user_id of the stored session. -/
def updateKeepsOwner (id : String) (u : SessionUpdates) (σ : LStore) : Prop :=
  ∀ s, lookupA σ.sessions id = some s → (applyUpdates s u).user_id = s.user_id

/-- The amended preservation property at a state σ: every storage operation
of the owner-indexed backend (save under the owner-consistency precondition,
getActiveForUser, update under the claimed user_id precondition, setActive,
delete, clearExpired) preserves the strengthened invariant; the strengthened
invariant implies the claimed one; and the repair branch of getActiveForUser
is unreachable (every index hit resolves in the id map). -/
def strongInvPreserved (σ : LStore) : Prop :=
  (∀ s, saveOwnerConsistent s σ → IndexInvStrong (LocalStore.save s σ)) ∧
  (∀ u, IndexInvStrong (LocalStore.getActiveForUser u σ).2) ∧
  (∀ id u, updateKeepsOwner id u σ → IndexInvStrong (LocalStore.update id u σ)) ∧
  (∀ id, IndexInvStrong (LocalStore.setActive id σ)) ∧
  (∀ id, IndexInvStrong (LocalStore.delete id σ)) ∧
  IndexInvStrong (LocalStore.clearExpired σ).2 ∧
  IndexInv σ ∧
  (∀ u id, lookupA σ.userIndex u = some id → (lookupA σ.sessions id).isSome)

-- ============================================================================
-- Concrete sample values used by counterexamples and witnesses
-- ============================================================================

deriving instance DecidableEq for Except

/-- A placeholder for the JavaScript calculateIntensity float function in
concrete evaluations; the lifecycle theorems hold for every such function. -/
def cI0 : ℚ → ℚ := fun _ => 0

/-- A placeholder id supply standing for randomUUID in concrete evaluations. -/
def idGen0 : ℕ → String := fun n => "uuid-" ++ toString n

/-- A sample non-expired session owned by u1 (timestamps in epoch ms). -/
def sessionW : Session :=
  { session_id := "s1", dose_um := 100, intensity_coefficient := 45
    session_duration_hours := 8, created_at := 0, expires_at := 28800000
    user_id := "u1", safety_anchors := ["factual_accuracy"]
    current_mode := none, status := .initialized }

/-- A local-mode store holding sessionW as the active session. -/
def storeC9 : Store :=
  { remoteMode := false, currentUserId := none
    localSessions := [("s1", sessionW)], localActiveId := some "s1"
    dbRows := [], nextId := 0, now := 1000 }

/-- A remote-mode store with no ambient user context. -/
def storeRemoteNoUser : Store :=
  { remoteMode := true, currentUserId := none
    localSessions := [], localActiveId := none
    dbRows := [], nextId := 0, now := 0 }

/-- An empty local-mode store. -/
def storeLocalEmpty : Store :=
  { remoteMode := false, currentUserId := none
    localSessions := [], localActiveId := none
    dbRows := [], nextId := 0, now := 0 }

/-- An old initialized, non-expired row of user u (createdAt 0). -/
def rowOld : DbRow :=
  { id := "r-old", userId := "u", doseUm := 100, intensityCoefficient := 45
    safetyAnchors := [], currentMode := none, status := .initialized
    createdAt := 0, expiresAt := 1000 }

/-- A newer initialized, non-expired row of user u (createdAt 50). -/
def rowNew : DbRow :=
  { id := "r-new", userId := "u", doseUm := 200, intensityCoefficient := 55
    safetyAnchors := [], currentMode := none, status := .initialized
    createdAt := 50, expiresAt := 1000 }

/-- A non-expired row of user u whose status is active. -/
def rowActive : DbRow :=
  { id := "r-act", userId := "u", doseUm := 100, intensityCoefficient := 45
    safetyAnchors := [], currentMode := some "pattern_amplification"
    status := .active, createdAt := 0, expiresAt := 1000 }

/-- A remote store holding the two initialized rows of user u, clock at 60. -/
def storeTwoRows : Store :=
  { remoteMode := true, currentUserId := some "u"
    localSessions := [], localActiveId := none
    dbRows := [rowOld, rowNew], nextId := 0, now := 60 }

/-- A remote store holding only the active row of user u, clock at 60. -/
def storeActiveRow : Store :=
  { remoteMode := true, currentUserId := some "u"
    localSessions := [], localActiveId := none
    dbRows := [rowActive], nextId := 0, now := 60 }

/-- An expired row (expiresAt 50, evaluated at clock 100). -/
def rowExpired : DbRow :=
  { id := "r-exp", userId := "u", doseUm := 100, intensityCoefficient := 45
    safetyAnchors := [], currentMode := none, status := .initialized
    createdAt := 0, expiresAt := 50 }

/-- A session with id A owned by u1. -/
def sessA1 : Session :=
  { session_id := "A", dose_um := 50, intensity_coefficient := 21
    session_duration_hours := 8, created_at := 0, expires_at := 28800000
    user_id := "u1", safety_anchors := [], current_mode := none
    status := .initialized }

/-- A session with the same id A, owned by u2. -/
def sessA2 : Session :=
  { sessA1 with user_id := "u2" }

/-- The empty owner-indexed store. -/
def lstoreEmpty : LStore :=
  { sessions := [], activeId := none, userIndex := [], now := 100 }

/-- The owner-indexed store reached from empty by saving sessA1 and then
re-saving id A as sessA2: the index aliases u1 and u2 to the same id. -/
def lstoreAliased : LStore :=
  LocalStore.save sessA2 (LocalStore.save sessA1 lstoreEmpty)

/-- A well-formed owner-indexed store holding sessA1 indexed under u1. -/
def lstoreW : LStore :=
  { sessions := [("A", sessA1)], activeId := some "A"
    userIndex := [("u1", "A")], now := 100 }

-- ============================================================================
-- Association list lemmas
-- ============================================================================

theorem lookupA_setA {α : Type} (l : List (String × α)) (k k₁ : String) (v : α) :
    lookupA (setA l k v) k₁ = if k = k₁ then some v else lookupA l k₁ := by
  induction l with
  | nil => simp [setA, lookupA]
  | cons e t ih =>
    obtain ⟨k₀, v₀⟩ := e
    by_cases hk : k₀ = k
    · subst hk
      by_cases h₁ : k₀ = k₁
      · subst h₁; simp [setA, lookupA]
      · simp [setA, lookupA, h₁]
    · by_cases h₁ : k₀ = k₁
      · subst h₁
        have hne : ¬ k = k₀ := fun h => hk h.symm
        simp [setA, hk, lookupA, hne]
      · simp [setA, hk, lookupA, h₁, ih]

theorem mem_setA {α : Type} {l : List (String × α)} {k : String} {v : α}
    {p : String × α} (h : p ∈ setA l k v) : p = (k, v) ∨ p ∈ l := by
  induction l with
  | nil => simpa [setA] using h
  | cons e t ih =>
    obtain ⟨k₀, v₀⟩ := e
    by_cases hk : k₀ = k
    · subst hk
      simp only [setA, if_pos rfl] at h
      rcases List.mem_cons.mp h with h | h
      · exact Or.inl h
      · exact Or.inr (List.mem_cons_of_mem _ h)
    · simp only [setA, if_neg hk] at h
      rcases List.mem_cons.mp h with h | h
      · exact Or.inr (by simp [h])
      · rcases ih h with h' | h'
        · exact Or.inl h'
        · exact Or.inr (List.mem_cons_of_mem _ h')

theorem eraseA_sublist {α : Type} (l : List (String × α)) (k : String) :
    (eraseA l k).Sublist l := by
  induction l with
  | nil => simp [eraseA]
  | cons e t ih =>
    obtain ⟨k₀, v₀⟩ := e
    by_cases hk : k₀ = k
    · simp only [eraseA, if_pos hk]
      exact List.Sublist.cons _ (List.Sublist.refl t)
    · simp only [eraseA, if_neg hk]
      exact List.Sublist.cons₂ _ ih

theorem mem_eraseA {α : Type} {l : List (String × α)} {k : String}
    {p : String × α} (h : p ∈ eraseA l k) : p ∈ l :=
  (eraseA_sublist l k).mem h

theorem lookupA_eraseA_ne {α : Type} (l : List (String × α)) {k k₁ : String}
    (h : k₁ ≠ k) : lookupA (eraseA l k) k₁ = lookupA l k₁ := by
  induction l with
  | nil => simp [eraseA]
  | cons e t ih =>
    obtain ⟨k₀, v₀⟩ := e
    have hne : ¬ k = k₁ := fun hh => h hh.symm
    by_cases hk : k₀ = k
    · simp [eraseA, hk, lookupA, hne]
    · by_cases h₁ : k₀ = k₁
      · simp [eraseA, hk, lookupA, h₁, h]
      · simp [eraseA, hk, lookupA, h₁, ih]

theorem lookupA_mem {α : Type} {l : List (String × α)} {k : String} {v : α}
    (h : lookupA l k = some v) : (k, v) ∈ l := by
  induction l with
  | nil => simp [lookupA] at h
  | cons e t ih =>
    obtain ⟨k₀, v₀⟩ := e
    by_cases hk : k₀ = k
    · subst hk
      simp [lookupA] at h
      subst h
      exact List.mem_cons_self _ _
    · simp only [lookupA, if_neg hk] at h
      exact List.mem_cons_of_mem _ (ih h)

theorem lookupA_eq_none {α : Type} {l : List (String × α)} {k : String}
    (h : lookupA l k = none) : k ∉ keysA l := by
  induction l with
  | nil => simp [keysA]
  | cons e t ih =>
    obtain ⟨k₀, v₀⟩ := e
    by_cases hk : k₀ = k
    · subst hk; simp [lookupA] at h
    · simp only [lookupA, if_neg hk] at h
      simp only [keysA, List.map_cons, List.mem_cons]
      rintro (h' | h')
      · exact hk h'.symm
      · exact ih h (by simpa [keysA] using h')

theorem lookupA_of_mem_nodup {α : Type} {l : List (String × α)} {k : String}
    {v : α} (hn : (keysA l).Nodup) (h : (k, v) ∈ l) : lookupA l k = some v := by
  induction l with
  | nil => simp at h
  | cons e t ih =>
    obtain ⟨k₀, v₀⟩ := e
    simp only [keysA, List.map_cons, List.nodup_cons] at hn
    rcases List.mem_cons.mp h with h' | h'
    · have h₁ : k = k₀ := congrArg Prod.fst h'
      have h₂ : v = v₀ := congrArg Prod.snd h'
      subst h₁; subst h₂
      simp [lookupA]
    · have hk : k₀ ≠ k := by
        rintro rfl
        exact hn.1 (by simpa [keysA] using List.mem_map_of_mem Prod.fst h')
      simp [lookupA, hk, ih hn.2 h']

theorem eraseA_of_not_mem {α : Type} {l : List (String × α)} {k : String}
    (h : k ∉ keysA l) : eraseA l k = l := by
  induction l with
  | nil => simp [eraseA]
  | cons e t ih =>
    obtain ⟨k₀, v₀⟩ := e
    simp only [keysA, List.map_cons, List.mem_cons] at h
    push_neg at h
    have hk : k₀ ≠ k := fun hh => h.1 hh.symm
    simp [eraseA, hk, ih (by simpa [keysA] using h.2)]

theorem not_mem_eraseA_self {α : Type} {l : List (String × α)} {k : String}
    {v : α} (hn : (keysA l).Nodup) (h : (k, v) ∈ eraseA l k) : False := by
  induction l with
  | nil => simp [eraseA] at h
  | cons e t ih =>
    obtain ⟨k₀, v₀⟩ := e
    simp only [keysA, List.map_cons, List.nodup_cons] at hn
    by_cases hk : k₀ = k
    · subst hk
      simp only [eraseA, if_pos rfl] at h
      exact hn.1 (by simpa [keysA] using List.mem_map_of_mem Prod.fst h)
    · simp only [eraseA, if_neg hk] at h
      rcases List.mem_cons.mp h with h' | h'
      · exact hk (congrArg Prod.fst h').symm
      · exact ih hn.2 h'

theorem mem_keysA_setA {α : Type} {l : List (String × α)} {k k₁ : String}
    {v : α} (h : k₁ ∈ keysA (setA l k v)) : k₁ ∈ keysA l ∨ k₁ = k := by
  simp only [keysA, List.mem_map] at h
  obtain ⟨p, hp, hpk⟩ := h
  rcases mem_setA hp with h' | h'
  · subst h'; right; simpa using hpk.symm
  · left
    subst hpk
    exact List.mem_map_of_mem Prod.fst h'

theorem nodup_keysA_setA {α : Type} {l : List (String × α)} {k : String}
    {v : α} (hn : (keysA l).Nodup) : (keysA (setA l k v)).Nodup := by
  induction l with
  | nil => simp [setA, keysA]
  | cons e t ih =>
    obtain ⟨k₀, v₀⟩ := e
    simp only [keysA, List.map_cons, List.nodup_cons] at hn
    by_cases hk : k₀ = k
    · subst hk
      simpa [setA, keysA] using hn
    · simp only [setA, if_neg hk, keysA, List.map_cons, List.nodup_cons]
      refine ⟨?_, ih hn.2⟩
      intro hmem
      rcases mem_keysA_setA (by simpa [keysA] using hmem) with h' | h'
      · exact hn.1 (by simpa [keysA] using h')
      · exact hk h'

theorem nodup_keysA_of_sublist {α : Type} {l₁ l₂ : List (String × α)}
    (h : l₁.Sublist l₂) (hn : (keysA l₂).Nodup) : (keysA l₁).Nodup :=
  List.Nodup.sublist (by simpa [keysA] using h.map Prod.fst) hn

-- ============================================================================
-- C4: override combination policy
-- ============================================================================

/-- C4 counterexample: the perspective-count knob with a supplied override
returns the same value at intensities 0.1 and 0.9 although the
intensity-derived bases differ (2 versus 6), so this knob ignores the
intensity-derived base, contradicting the claim that no knob does. -/
theorem calculatePerspectiveCount_ignores_base :
    calculatePerspectiveCount 0.9 (some 7) = 7 ∧
    calculatePerspectiveCount 0.1 (some 7) = 7 ∧
    calculatePerspectiveCount 0.9 none = 6 ∧
    calculatePerspectiveCount 0.1 none = 2 := by
  refine ⟨?_, ?_, ?_, ?_⟩ <;> norm_num [calculatePerspectiveCount]

/-- C4 (amended): the focus-allocation knob composes a supplied override with
the intensity-derived base as a floor (the base is a minimum; a request
between the base and 1 is honoured verbatim); the anchor-strength knob
composes it as a ceiling (the base max 0.1 (1 - i) is a maximum; a request
between 0.1 and that base is honoured verbatim); but the perspective-count
knob with a supplied override is the request clamped to the fixed range
2..10, independent of the intensity-derived base. -/
theorem overridePolicy_amended (i r : ℚ) :
    (calculateFocusAllocation i none ≤ calculateFocusAllocation i (some r) ∧
      (calculateFocusAllocation i none ≤ r → r ≤ 1 →
        calculateFocusAllocation i (some r) = r)) ∧
    (calculateEffectiveAnchorStrength i (some r) ≤ max 0.1 (1 - i) ∧
      (0.1 ≤ r → r ≤ max 0.1 (1 - i) →
        calculateEffectiveAnchorStrength i (some r) = r)) ∧
    (∀ j : ℚ, calculatePerspectiveCount i (some r) = calculatePerspectiveCount j (some r)) ∧
    calculatePerspectiveCount i (some r) = max 2 (min 10 r) := by
  refine ⟨⟨?_, ?_⟩, ⟨?_, ?_⟩, ?_, ?_⟩
  · simp only [calculateFocusAllocation]
    exact le_max_left _ _
  · intro h₁ h₂
    simp only [calculateFocusAllocation] at h₁ ⊢
    rw [min_eq_right h₂, max_eq_right h₁]
  · simp only [calculateEffectiveAnchorStrength]
    exact min_le_left _ _
  · intro h₁ h₂
    simp only [calculateEffectiveAnchorStrength]
    rw [max_eq_right h₁, min_eq_right h₂]
  · intro j
    simp [calculatePerspectiveCount]
  · simp [calculatePerspectiveCount]

/-- Witness for overridePolicy_amended at concrete inputs. -/
theorem overridePolicy_amended_witness :
    calculateFocusAllocation 0.5 (some 0.8) = 0.8 ∧
    calculateEffectiveAnchorStrength 0.5 (some 0.3) = 0.3 ∧
    calculatePerspectiveCount 0.5 (some 7) = calculatePerspectiveCount 0.9 (some 7) :=
  ⟨(overridePolicy_amended 0.5 0.8).1.2 (by norm_num [calculateFocusAllocation]) (by norm_num),
   (overridePolicy_amended 0.5 0.3).2.1.2 (by norm_num) (by norm_num),
   (overridePolicy_amended 0.5 7).2.2.1 0.9⟩

-- ============================================================================
-- C7: monotonicity of tiered outputs in intensity
-- ============================================================================

/-- C7: for every pair of intensities i₁ ≤ i₂, each tiered output is at least
as high in its tier order at i₂ as at i₁: elaboration depth and apophenia
tolerance (pattern amplification), the gated forbidden-abstractions list
(synesthetic), the gated suspended-rules list (boundary dissolution) and the
novelty threshold label (novelty bias) are all non-decreasing. -/
theorem tieredOutputs_monotone (i₁ i₂ : ℚ) (h : i₁ ≤ i₂) :
    elaborationRank (getElaborationDepth i₁) ≤ elaborationRank (getElaborationDepth i₂) ∧
    apopheniaRank (getApopheniaTolerance i₁) ≤ apopheniaRank (getApopheniaTolerance i₂) ∧
    optSubset (getForbiddenAbstractions i₁) (getForbiddenAbstractions i₂) ∧
    optSubset (getSuspendedRules i₁) (getSuspendedRules i₂) ∧
    noveltyRank (getNoveltyThreshold i₁) ≤ noveltyRank (getNoveltyThreshold i₂) := by
  refine ⟨?_, ?_, ?_, ?_, ?_⟩
  · unfold getElaborationDepth
    split_ifs <;> first | decide | linarith
  · unfold getApopheniaTolerance
    split_ifs <;> first | decide | linarith
  · unfold getForbiddenAbstractions
    split_ifs <;> first | decide | linarith
  · unfold getSuspendedRules
    split_ifs <;> first | decide | linarith
  · unfold getNoveltyThreshold
    split_ifs <;> first | decide | linarith

/-- Witness for tieredOutputs_monotone at the intensities 0.3 and 0.7. -/
theorem tieredOutputs_monotone_witness :
    elaborationRank (getElaborationDepth 0.3) ≤ elaborationRank (getElaborationDepth 0.7) ∧
    apopheniaRank (getApopheniaTolerance 0.3) ≤ apopheniaRank (getApopheniaTolerance 0.7) ∧
    optSubset (getForbiddenAbstractions 0.3) (getForbiddenAbstractions 0.7) ∧
    optSubset (getSuspendedRules 0.3) (getSuspendedRules 0.7) ∧
    noveltyRank (getNoveltyThreshold 0.3) ≤ noveltyRank (getNoveltyThreshold 0.7) :=
  tieredOutputs_monotone 0.3 0.7 (by norm_num)

-- ============================================================================
-- Lifecycle state lemmas
-- ============================================================================

theorem storageGetActive_preserves (σ : Store) :
    (storageGetActive σ).2.remoteMode = σ.remoteMode ∧
    (storageGetActive σ).2.currentUserId = σ.currentUserId ∧
    (storageGetActive σ).2.now = σ.now ∧
    (storageGetActive σ).2.nextId = σ.nextId := by
  unfold storageGetActive
  repeat' split
  all_goals simp

theorem getActiveSessionForUser_preserves (u : String) (σ : Store) :
    ((getActiveSessionForUser u σ).2.remoteMode = σ.remoteMode ∧
     (getActiveSessionForUser u σ).2.currentUserId = σ.currentUserId ∧
     (getActiveSessionForUser u σ).2.now = σ.now ∧
     (getActiveSessionForUser u σ).2.nextId = σ.nextId) := by
  unfold getActiveSessionForUser
  split
  · exact storageGetActive_preserves σ
  · repeat' split
    all_goals simp

theorem getActiveSession_preserves (σ : Store) :
    ((getActiveSession σ).2.remoteMode = σ.remoteMode ∧
     (getActiveSession σ).2.currentUserId = σ.currentUserId ∧
     (getActiveSession σ).2.now = σ.now ∧
     (getActiveSession σ).2.nextId = σ.nextId) := by
  unfold getActiveSession
  split
  · exact getActiveSessionForUser_preserves _ σ
  · exact storageGetActive_preserves σ

theorem storageGetActive_some_eq {σ σ₁ : Store} {s : Session}
    (h : storageGetActive σ = (some s, σ₁)) : σ₁ = σ := by
  unfold storageGetActive at h
  repeat' split at h
  all_goals simp_all

theorem getActiveSession_some_eq {σ σ₁ : Store} {s : Session}
    (h : getActiveSession σ = (some s, σ₁)) : σ₁ = σ := by
  unfold getActiveSession at h
  split at h
  · unfold getActiveSessionForUser at h
    split at h
    · exact storageGetActive_some_eq h
    · repeat' split at h
      all_goals simp_all
  · exact storageGetActive_some_eq h

theorem getActiveSession_local {σ : Store} (h : σ.remoteMode = false) :
    getActiveSession σ = storageGetActive σ := by
  unfold getActiveSession getActiveSessionForUser
  split <;> simp [h]

-- ============================================================================
-- C1: remote per-user active-session resolution
-- ============================================================================

/-- C1 (code evaluation at the failing inputs): on a remote store holding two
non-expired initialized rows of user u created at 0 and 50, the query returns
the row created at 0 (the oldest, because it orders by createdAt ascending),
not the most recently created one; and on a remote store holding a single
non-expired row of user u with status active, it returns none (because it
filters on status initialized only), although the claim requires any
non-terminal status to be found. -/
theorem getActiveSessionForUser_divergence :
    (getActiveSessionForUser "u" storeTwoRows).1 = some (dbToAppSession rowOld) ∧
    rowOld.createdAt < rowNew.createdAt ∧
    rowNew.userId = "u" ∧ rowNew.status = .initialized ∧
    ¬ rowNew.expiresAt < storeTwoRows.now ∧
    (getActiveSessionForUser "u" storeActiveRow).1 = none ∧
    rowActive.userId = "u" ∧ rowActive.status = .active ∧
    ¬ rowActive.expiresAt < storeActiveRow.now := by
  decide

-- ============================================================================
-- C2: adjust_dose retry bound and termination
-- ============================================================================

/-- C2 (code evaluation at the failing input): in remote mode with no ambient
user context, adjustDose never terminates: getActiveSession always resolves
to none (RemoteSessionStorage.getActive returns null), so the source makes an
unguarded recursive self-call after each auto-creation; for every recursion
bound the fuelled embedding exhausts its fuel. -/
theorem adjustDose_remote_noUser_diverges (calcI : ℚ → ℚ) (idGen : ℕ → String)
    (fuel : ℕ) (d : ℚ) (σ : Store)
    (h₁ : σ.remoteMode = true) (h₂ : σ.currentUserId = none) :
    adjustDose calcI idGen fuel d σ = none := by
  induction fuel generalizing σ with
  | zero => rfl
  | succ n ih =>
    have hg : getActiveSession σ = (none, σ) := by
      simp [getActiveSession, truthyUser, h₂, storageGetActive, h₁]
    unfold adjustDose
    rw [hg]
    exact ih _ (by simp [createSession, storageSave, h₁])
      (by simp [createSession, storageSave, h₁, h₂])

/-- Witness for adjustDose_remote_noUser_diverges at a concrete store and
recursion bound. -/
theorem adjustDose_remote_noUser_diverges_witness :
    adjustDose cI0 idGen0 5 75 storeRemoteNoUser = none :=
  adjustDose_remote_noUser_diverges cI0 idGen0 5 75 storeRemoteNoUser rfl rfl

-- ============================================================================
-- C3: ensureSession totality
-- ============================================================================

/-- C3 counterexample: in remote mode with no ambient user context,
ensureSession throws the error Failed to create session, so it does not
return a session and can fail to the caller. -/
theorem ensureSession_can_fail :
    ensureSession cI0 idGen0 storeRemoteNoUser = .error "Failed to create session" := by
  decide

/-- C3 (amended): with the local backend, ensureSession always returns a
session and never fails: when no active session resolves, the auto-created
session is saved as the active one and is not yet expired, so the
re-resolution finds it. -/
theorem ensureSession_local_total (calcI : ℚ → ℚ) (idGen : ℕ → String)
    (σ : Store) (h : σ.remoteMode = false) :
    ∃ s σ₁, ensureSession calcI idGen σ = .ok (s, σ₁) := by
  unfold ensureSession
  rcases hg : getActiveSession σ with ⟨s?, σ₁⟩
  cases s? with
  | some s => exact ⟨s, σ₁, rfl⟩
  | none =>
    have h₁ : σ₁.remoteMode = false := by
      have hp := (getActiveSession_preserves σ).1
      rw [hg] at hp
      simpa [h] using hp
    set s₂ := (createSession calcI idGen 50 (autoUser σ₁) ["factual_accuracy"] σ₁).1 with hs₂
    set σ₂ := (createSession calcI idGen 50 (autoUser σ₁) ["factual_accuracy"] σ₁).2 with hσ₂
    have hsave : σ₂ = { σ₁ with
        nextId := σ₁.nextId + 1,
        localSessions := setA σ₁.localSessions s₂.session_id s₂,
        localActiveId := some s₂.session_id } := by
      simp [hσ₂, hs₂, createSession, storageSave, h₁]
    have h₂ : σ₂.remoteMode = false := by rw [hsave]; exact h₁
    have hga : getActiveSession σ₂ = (some s₂, σ₂) := by
      rw [getActiveSession_local h₂]
      unfold storageGetActive
      rw [if_neg (by simp [h₂])]
      rw [hsave]
      simp only [lookupA_setA, if_pos rfl]
      have hexp : ¬ σ₁.now > s₂.expires_at := by
        have : s₂.expires_at = σ₁.now + SESSION_DURATION_MS := by
          simp [hs₂, createSession]
        rw [this]
        simp only [SESSION_DURATION_MS]
        omega
      simp [hexp]
    refine ⟨s₂, σ₂, ?_⟩
    dsimp only
    rw [hga]

/-- Witness for ensureSession_local_total at the empty local store. -/
theorem ensureSession_local_total_witness :
    ∃ s σ₁, ensureSession cI0 idGen0 storeLocalEmpty = .ok (s, σ₁) :=
  ensureSession_local_total cI0 idGen0 storeLocalEmpty rfl

-- ============================================================================
-- Sigmoid lemmas (C5, C6)
-- ============================================================================

theorem jsRoundR_eq (x : ℝ) (n : ℤ) (h₁ : (n:ℝ) ≤ x + 1/2) (h₂ : x + 1/2 < n + 1) :
    jsRoundR x = n := by
  have hf : ⌊x + 1/2⌋ = n := Int.floor_eq_iff.mpr ⟨h₁, h₂⟩
  rw [jsRoundR, hf]

theorem calcIntensity_150 : calculateIntensity 150 = 0.5 := by
  have harg : -SIGMOID_STEEPNESS * ((150:ℝ) - SIGMOID_MIDPOINT) = 0 := by
    simp [SIGMOID_STEEPNESS, SIGMOID_MIDPOINT]
  rw [calculateIntensity, harg, Real.exp_zero, round2R]
  have h50 : jsRoundR (1 / (1 + 1) * 100) = (50:ℤ) := by
    apply jsRoundR_eq
    · norm_num
    · norm_num
  rw [h50]
  norm_num

theorem exp_neg_0015_bounds :
    (0.985:ℝ) ≤ Real.exp (-0.015) ∧ Real.exp (-0.015) ≤ 0.9853 := by
  constructor
  · have h := Real.add_one_le_exp (-0.015:ℝ)
    linarith
  · have h1 : (1.015:ℝ) ≤ Real.exp 0.015 := by
      have := Real.add_one_le_exp (0.015:ℝ)
      linarith
    have h2 : Real.exp (-0.015:ℝ) = (Real.exp 0.015)⁻¹ := Real.exp_neg _
    have h4 : (0.9853:ℝ)⁻¹ ≤ Real.exp 0.015 := by
      have hq : (0.9853:ℝ)⁻¹ = 10000/9853 := by norm_num
      rw [hq]
      have : (10000:ℝ)/9853 ≤ 1.015 := by norm_num
      linarith
    rw [h2]
    calc (Real.exp 0.015)⁻¹ ≤ ((0.9853:ℝ)⁻¹)⁻¹ :=
          inv_anti₀ (by norm_num) h4
      _ = 0.9853 := by norm_num

theorem calcIntensity_151 : calculateIntensity 151 = 0.5 := by
  have harg : -SIGMOID_STEEPNESS * ((151:ℝ) - SIGMOID_MIDPOINT) = -0.015 := by
    norm_num [SIGMOID_STEEPNESS, SIGMOID_MIDPOINT]
  rw [calculateIntensity, harg, round2R]
  obtain ⟨hE1, hE2⟩ := exp_neg_0015_bounds
  set E := Real.exp (-0.015:ℝ) with hE
  have hpos : (0:ℝ) < 1 + E := by positivity
  have hx1 : 100 / (1 + E) ≤ 100 / 1.985 :=
    div_le_div_of_nonneg_left (by norm_num) (by norm_num) (by linarith)
  have hx2 : (100:ℝ) / 1.9853 ≤ 100 / (1 + E) :=
    div_le_div_of_nonneg_left (by norm_num) hpos (by linarith)
  have hxdef : 1 / (1 + E) * 100 = 100 / (1 + E) := by ring
  have h50 : jsRoundR (1 / (1 + E) * 100) = (50:ℤ) := by
    apply jsRoundR_eq
    · rw [hxdef]
      have : (50.37:ℝ) ≤ 100 / 1.9853 := by norm_num
      push_cast
      linarith
    · rw [hxdef]
      have : (100:ℝ) / 1.985 ≤ 50.38 := by norm_num
      push_cast
      linarith
  rw [h50]
  norm_num

-- ============================================================================
-- C5: monotonicity of the intensity function
-- ============================================================================

/-- C5 counterexample: the doses 150 and 151 satisfy 150 < 151 yet produce the
same intensity 0.5 after the two-decimal rounding, so the intensity function
of the source is not strictly increasing in dose. -/
theorem calculateIntensity_not_strict :
    calculateIntensity 150 = calculateIntensity 151 ∧ (150:ℝ) < 151 := by
  rw [calcIntensity_150, calcIntensity_151]
  norm_num

/-- C5 (amended): the intensity function is monotone non-decreasing in dose
(the unrounded sigmoid is strictly increasing, but the rounding to two
decimals collapses nearby doses to equal outputs). -/
theorem calculateIntensity_mono (d₁ d₂ : ℝ) (h : d₁ ≤ d₂) :
    calculateIntensity d₁ ≤ calculateIntensity d₂ := by
  unfold calculateIntensity
  have hs : 1 / (1 + Real.exp (-SIGMOID_STEEPNESS * (d₁ - SIGMOID_MIDPOINT))) ≤
      1 / (1 + Real.exp (-SIGMOID_STEEPNESS * (d₂ - SIGMOID_MIDPOINT))) := by
    have hc : -SIGMOID_STEEPNESS * (d₂ - SIGMOID_MIDPOINT) ≤
        -SIGMOID_STEEPNESS * (d₁ - SIGMOID_MIDPOINT) := by
      simp only [SIGMOID_STEEPNESS, SIGMOID_MIDPOINT]
      nlinarith
    have hexp := Real.exp_le_exp.mpr hc
    have hp : (0:ℝ) < 1 + Real.exp (-SIGMOID_STEEPNESS * (d₂ - SIGMOID_MIDPOINT)) := by
      positivity
    exact one_div_le_one_div_of_le hp (by linarith)
  unfold round2R jsRoundR
  have hfl : (⌊1 / (1 + Real.exp (-SIGMOID_STEEPNESS * (d₁ - SIGMOID_MIDPOINT))) * 100 + 1/2⌋ : ℤ) ≤
      ⌊1 / (1 + Real.exp (-SIGMOID_STEEPNESS * (d₂ - SIGMOID_MIDPOINT))) * 100 + 1/2⌋ :=
    Int.floor_le_floor (by linarith)
  have hcast : ((⌊1 / (1 + Real.exp (-SIGMOID_STEEPNESS * (d₁ - SIGMOID_MIDPOINT))) * 100 + 1/2⌋ : ℤ) : ℝ) ≤
      ((⌊1 / (1 + Real.exp (-SIGMOID_STEEPNESS * (d₂ - SIGMOID_MIDPOINT))) * 100 + 1/2⌋ : ℤ) : ℝ) :=
    Int.cast_le.mpr hfl
  linarith

/-- Witness for calculateIntensity_mono at the doses 100 and 200. -/
theorem calculateIntensity_mono_witness :
    calculateIntensity 100 ≤ calculateIntensity 200 :=
  calculateIntensity_mono 100 200 (by norm_num)

-- ============================================================================
-- C6: the intensity formula matches the spec
-- ============================================================================

/-- C6: for every dose, the intensity of the source equals the spec formula
1 / (1 + e^(-0.015 (dose - 150))) rounded to two decimal places, and
intensity(150) = 0.50 exactly. -/
theorem calculateIntensity_matches_spec :
    (∀ d : ℝ, calculateIntensity d = intensitySpec d) ∧ calculateIntensity 150 = 0.5 :=
  ⟨fun d => by rw [calculateIntensity, intensitySpec, SIGMOID_STEEPNESS, SIGMOID_MIDPOINT],
   calcIntensity_150⟩

-- ============================================================================
-- C8: clearExpired
-- ============================================================================

theorem localClearExpired_foldl (now : ℤ) (l : List (String × Session))
    (n : ℕ) (acc : List (String × Session)) :
    l.foldl
      (fun a e => if e.2.expires_at < now then (a.1 + 1, a.2) else (a.1, a.2 ++ [e]))
      (n, acc) =
    (n + (l.filter (fun e => decide (e.2.expires_at < now))).length,
     acc ++ l.filter (fun e => decide (¬ e.2.expires_at < now))) := by
  induction l generalizing n acc with
  | nil => simp
  | cons e t ih =>
    by_cases he : e.2.expires_at < now
    · rw [List.foldl_cons, if_pos he, ih]
      simp [he]
      omega
    · rw [List.foldl_cons, if_neg he, ih]
      have hp : decide (¬ e.2.expires_at < now) = true := by simpa using he
      have hq : decide (e.2.expires_at < now) = false := by simpa using he
      simp only [List.filter_cons, hp, hq, if_true, if_false, Bool.false_eq_true,
        List.length_cons, List.append_assoc, List.singleton_append]

/-- C8 counterexample: the remote backend removes the expired row but reports
a count of 0, so clearExpired does not return the number of sessions removed
on both backends. -/
theorem remoteClearExpired_count_wrong :
    rowExpired.expiresAt < 100 ∧
    (remoteClearExpired 100 [rowExpired]).2 = [] ∧
    (remoteClearExpired 100 [rowExpired]).1 = 0 := by
  decide

/-- C8 (amended): on both backends clearExpired removes exactly the sessions
whose expiresAt is before the current time and leaves every other session
untouched; the local backend returns the exact number removed, while the
remote backend always returns 0. -/
theorem clearExpired_amended (now : ℤ) (l : List (String × Session))
    (rows : List DbRow) :
    (localClearExpired now l).2 = l.filter (fun e => decide (¬ e.2.expires_at < now)) ∧
    (localClearExpired now l).1 = (l.filter (fun e => decide (e.2.expires_at < now))).length ∧
    (remoteClearExpired now rows).2 = rows.filter (fun r => decide (¬ r.expiresAt < now)) ∧
    (remoteClearExpired now rows).1 = 0 := by
  have h := localClearExpired_foldl now l 0 []
  unfold localClearExpired
  rw [h]
  simp [remoteClearExpired]

-- ============================================================================
-- C9: adjust_dose frame property
-- ============================================================================

theorem storageUpdate_preserves (id : String) (u : SessionUpdates) (σ : Store) :
    (storageUpdate id u σ).remoteMode = σ.remoteMode ∧
    (storageUpdate id u σ).currentUserId = σ.currentUserId ∧
    (storageUpdate id u σ).localActiveId = σ.localActiveId ∧
    (storageUpdate id u σ).nextId = σ.nextId ∧
    (storageUpdate id u σ).now = σ.now := by
  unfold storageUpdate
  repeat' split
  all_goals simp

/-- C9: every adjust_dose call that finds an existing active session changes
only the dose and intensity fields of that session record; its id,
created_at, expires_at, user_id, safety_anchors, current_mode and status are
unchanged, every other record and the rest of the store state are untouched,
and the response echoes the previous dose and intensity. -/
theorem adjustDose_frame (calcI : ℚ → ℚ) (idGen : ℕ → String)
    (fuel : ℕ) (σ σ₁ : Store) (d : ℚ) (s : Session)
    (h : getActiveSession σ = (some s, σ₁)) :
    adjustDoseFrame calcI idGen fuel σ d s := by
  have hσ := getActiveSession_some_eq h
  rw [hσ] at h
  have hadj : adjustDose calcI idGen (fuel + 1) d σ =
      some ({ session_id := s.session_id
              previous_dose_um := s.dose_um
              new_dose_um := d
              previous_intensity := s.intensity_coefficient
              new_intensity := calcI d
              warning := getHighDoseWarning d },
            storageUpdate s.session_id
              { dose_um := some d, intensity_coefficient := some (calcI d) } σ) := by
    unfold adjustDose
    rw [h]
  refine ⟨_, _, hadj, rfl, rfl, rfl, rfl, rfl,
    (storageUpdate_preserves _ _ σ).1,
    (storageUpdate_preserves _ _ σ).2.1,
    (storageUpdate_preserves _ _ σ).2.2.1,
    (storageUpdate_preserves _ _ σ).2.2.2.1,
    (storageUpdate_preserves _ _ σ).2.2.2.2,
    ?_, ?_⟩
  · intro hl
    unfold storageUpdate
    rw [if_neg (by simp [hl])]
    cases hL : lookupA σ.localSessions s.session_id with
    | none =>
      refine ⟨rfl, fun k hk => rfl, fun t ht => ?_⟩
      simp at ht
    | some s₀ =>
      refine ⟨rfl, fun k hk => ?_, fun t ht => ?_⟩
      · dsimp only
        simp only [lookupA_setA]
        rw [if_neg (fun hh => hk hh.symm)]
      · injection ht with ht
        subst ht
        dsimp only
        simp only [lookupA_setA, if_pos rfl]
        rfl
  · intro hr
    unfold storageUpdate
    rw [if_pos hr]
    exact ⟨rfl, rfl⟩

/-- Witness for adjustDose_frame at the concrete local store holding the
active session sessionW. -/
theorem adjustDose_frame_witness :
    adjustDoseFrame cI0 idGen0 0 storeC9 75 sessionW :=
  adjustDose_frame cI0 idGen0 0 storeC9 storeC9 75 sessionW (by decide)

-- ============================================================================
-- C10: owner-index invariant
-- ============================================================================

theorem save_preserves_inv (s : Session) (σ : LStore) (hI : IndexInvStrong σ)
    (hc : saveOwnerConsistent s σ) : IndexInvStrong (LocalStore.save s σ) := by
  obtain ⟨hnS, hnU, hEnt⟩ := hI
  unfold LocalStore.save
  by_cases hu : s.user_id = ""
  · rw [if_pos hu]
    refine ⟨nodup_keysA_setA hnS, hnU, ?_⟩
    intro p hp
    obtain ⟨hne, hlc⟩ := hEnt p hp
    refine ⟨hne, ?_⟩
    rw [lookupA_setA]
    by_cases hpk : s.session_id = p.2
    · rw [if_pos hpk]
      cases hmap : lookupA σ.sessions p.2 with
      | none => rw [hmap] at hlc; exact absurd hlc (by simp)
      | some old =>
        rw [hmap] at hlc
        simp only [Option.map_some'] at hlc
        injection hlc with hlc
        have hold : old.user_id = s.user_id := hc old (by rw [hpk]; exact hmap)
        exact absurd (by rw [← hlc, hold, hu]) hne
    · rw [if_neg hpk]; exact hlc
  · rw [if_neg hu]
    refine ⟨nodup_keysA_setA hnS, nodup_keysA_setA hnU, ?_⟩
    intro p hp
    rcases mem_setA hp with hpe | hpe
    · subst hpe
      refine ⟨hu, ?_⟩
      rw [lookupA_setA, if_pos rfl]
      rfl
    · obtain ⟨hne, hlc⟩ := hEnt p hpe
      refine ⟨hne, ?_⟩
      rw [lookupA_setA]
      by_cases hpk : s.session_id = p.2
      · rw [if_pos hpk]
        cases hmap : lookupA σ.sessions p.2 with
        | none => rw [hmap] at hlc; exact absurd hlc (by simp)
        | some old =>
          rw [hmap] at hlc
          simp only [Option.map_some'] at hlc
          injection hlc with hlc
          have hold : old.user_id = s.user_id := hc old (by rw [hpk]; exact hmap)
          simp only [Option.map_some']
          rw [← hlc, hold]
      · rw [if_neg hpk]; exact hlc

theorem getActiveForUser_preserves_inv (u : String) (σ : LStore)
    (hI : IndexInvStrong σ) :
    IndexInvStrong (LocalStore.getActiveForUser u σ).2 := by
  obtain ⟨hnS, hnU, hEnt⟩ := hI
  cases hiu : lookupA σ.userIndex u with
  | none =>
    simp only [LocalStore.getActiveForUser, hiu]
    exact ⟨hnS, hnU, hEnt⟩
  | some id =>
    cases his : lookupA σ.sessions id with
    | none =>
      simp only [LocalStore.getActiveForUser, hiu, his]
      refine ⟨hnS, nodup_keysA_of_sublist (eraseA_sublist _ _) hnU, ?_⟩
      intro p hp
      exact hEnt p (mem_eraseA hp)
    | some s =>
      by_cases he : σ.now > s.expires_at
      · simp only [LocalStore.getActiveForUser, hiu, his, he, if_true]
        refine ⟨nodup_keysA_setA hnS,
          nodup_keysA_of_sublist (eraseA_sublist _ _) hnU, ?_⟩
        intro p hp
        have hp₁ := mem_eraseA hp
        obtain ⟨hne, hlc⟩ := hEnt p hp₁
        refine ⟨hne, ?_⟩
        rw [lookupA_setA]
        by_cases hpk : id = p.2
        · rw [if_pos hpk]
          rw [← hpk, his] at hlc
          simp only [Option.map_some'] at hlc ⊢
          exact hlc
        · rw [if_neg hpk]; exact hlc
      · simp only [LocalStore.getActiveForUser, hiu, his, he, if_false]
        exact ⟨hnS, hnU, hEnt⟩

theorem update_preserves_inv (id : String) (u : SessionUpdates) (σ : LStore)
    (hI : IndexInvStrong σ) (hc : updateKeepsOwner id u σ) :
    IndexInvStrong (LocalStore.update id u σ) := by
  obtain ⟨hnS, hnU, hEnt⟩ := hI
  unfold LocalStore.update
  cases his : lookupA σ.sessions id with
  | none => exact ⟨hnS, hnU, hEnt⟩
  | some s =>
    refine ⟨nodup_keysA_setA hnS, hnU, ?_⟩
    intro p hp
    obtain ⟨hne, hlc⟩ := hEnt p hp
    refine ⟨hne, ?_⟩
    rw [lookupA_setA]
    by_cases hpk : id = p.2
    · rw [if_pos hpk]
      rw [← hpk, his] at hlc
      simp only [Option.map_some'] at hlc ⊢
      rw [hc s his]
      exact hlc
    · rw [if_neg hpk]; exact hlc

theorem delete_preserves_inv (id : String) (σ : LStore) (hI : IndexInvStrong σ) :
    IndexInvStrong (LocalStore.delete id σ) := by
  obtain ⟨hnS, hnU, hEnt⟩ := hI
  have main : ∀ σ₁ : LStore, σ₁.sessions = eraseA σ.sessions id →
      (σ₁.userIndex = σ.userIndex ∧
        (∀ p ∈ σ.userIndex, p.2 ≠ id) ∨
       ∃ s, lookupA σ.sessions id = some s ∧ s.user_id ≠ "" ∧
        σ₁.userIndex = eraseA σ.userIndex s.user_id) →
      IndexInvStrong σ₁ := by
    intro σ₁ hse hui
    have hents : ∀ p ∈ σ₁.userIndex, p ∈ σ.userIndex := by
      rcases hui with ⟨hui, _⟩ | ⟨s, _, _, hui⟩
      · rw [hui]; exact fun p hp => hp
      · rw [hui]; exact fun p hp => mem_eraseA hp
    have hnu₁ : (keysA σ₁.userIndex).Nodup := by
      rcases hui with ⟨hui, _⟩ | ⟨s, _, _, hui⟩
      · rw [hui]; exact hnU
      · rw [hui]; exact nodup_keysA_of_sublist (eraseA_sublist _ _) hnU
    refine ⟨by rw [hse]; exact nodup_keysA_of_sublist (eraseA_sublist _ _) hnS,
      hnu₁, ?_⟩
    intro p hp
    obtain ⟨hne, hlc⟩ := hEnt p (hents p hp)
    refine ⟨hne, ?_⟩
    have hpk : p.2 ≠ id := by
      rcases hui with ⟨hui, hall⟩ | ⟨s, his, hsu, hui⟩
      · exact hall p (by rw [← hui]; exact hp)
      · intro hpk
        rw [hpk, his] at hlc
        simp only [Option.map_some'] at hlc
        injection hlc with hlc
        obtain ⟨p₁, p₂⟩ := p
        simp only at hlc hpk
        subst hpk
        rw [hui, ← hlc] at hp
        exact not_mem_eraseA_self hnU hp
    rw [hse, lookupA_eraseA_ne _ hpk]
    exact hlc
  cases his : lookupA σ.sessions id with
  | none =>
    have hinone : ∀ p ∈ σ.userIndex, p.2 ≠ id := by
      intro p hp hpk
      obtain ⟨_, hlc⟩ := hEnt p hp
      rw [hpk, his] at hlc
      exact absurd hlc (by simp)
    by_cases hA : σ.activeId = some id
    · apply main
      · simp [LocalStore.delete, his, hA]
      · exact Or.inl ⟨by simp [LocalStore.delete, his, hA], hinone⟩
    · apply main
      · simp [LocalStore.delete, his, hA]
      · exact Or.inl ⟨by simp [LocalStore.delete, his, hA], hinone⟩
  | some s =>
    by_cases hu : s.user_id = ""
    · have hinone : ∀ p ∈ σ.userIndex, p.2 ≠ id := by
        intro p hp hpk
        obtain ⟨hne, hlc⟩ := hEnt p hp
        rw [hpk, his] at hlc
        simp only [Option.map_some'] at hlc
        injection hlc with hlc
        exact hne (by rw [← hlc, hu])
      by_cases hA : σ.activeId = some id
      · apply main
        · simp [LocalStore.delete, his, hu, hA]
        · exact Or.inl ⟨by simp [LocalStore.delete, his, hu, hA], hinone⟩
      · apply main
        · simp [LocalStore.delete, his, hu, hA]
        · exact Or.inl ⟨by simp [LocalStore.delete, his, hu, hA], hinone⟩
    · by_cases hA : σ.activeId = some id
      · apply main
        · simp [LocalStore.delete, his, hu, hA]
        · exact Or.inr ⟨s, his, hu, by simp [LocalStore.delete, his, hu, hA]⟩
      · apply main
        · simp [LocalStore.delete, his, hu, hA]
        · exact Or.inr ⟨s, his, hu, by simp [LocalStore.delete, his, hu, hA]⟩

theorem foldl_eraseA_sublist (es : List (String × Session))
    (idx : List (String × String)) :
    (es.foldl (fun ix e => if e.2.user_id = "" then ix else eraseA ix e.2.user_id)
      idx).Sublist idx := by
  induction es generalizing idx with
  | nil => simp
  | cons e t ih =>
    rw [List.foldl_cons]
    by_cases hu : e.2.user_id = ""
    · rw [if_pos hu]; exact ih idx
    · rw [if_neg hu]
      exact (ih _).trans (eraseA_sublist _ _)

theorem mem_foldl_eraseA {idx : List (String × String)}
    {es : List (String × Session)} {p : String × String}
    (hn : (keysA idx).Nodup)
    (hp : p ∈ es.foldl
      (fun ix e => if e.2.user_id = "" then ix else eraseA ix e.2.user_id) idx) :
    p ∈ idx ∧ ∀ e ∈ es, e.2.user_id = "" ∨ e.2.user_id ≠ p.1 := by
  induction es generalizing idx with
  | nil => exact ⟨hp, by simp⟩
  | cons e t ih =>
    rw [List.foldl_cons] at hp
    by_cases hu : e.2.user_id = ""
    · rw [if_pos hu] at hp
      obtain ⟨h₁, h₂⟩ := ih hn hp
      refine ⟨h₁, ?_⟩
      intro e₁ he₁
      rcases List.mem_cons.mp he₁ with he₁ | he₁
      · exact Or.inl (he₁ ▸ hu)
      · exact h₂ e₁ he₁
    · rw [if_neg hu] at hp
      have hn₁ : (keysA (eraseA idx e.2.user_id)).Nodup :=
        nodup_keysA_of_sublist (eraseA_sublist _ _) hn
      obtain ⟨h₁, h₂⟩ := ih hn₁ hp
      refine ⟨mem_eraseA h₁, ?_⟩
      intro e₁ he₁
      rcases List.mem_cons.mp he₁ with he₁ | he₁
      · subst he₁
        right
        intro heq
        obtain ⟨p₁, p₂⟩ := p
        simp only at heq
        rw [heq] at h₁
        exact not_mem_eraseA_self hn h₁
      · exact h₂ e₁ he₁

theorem clearExpired_preserves_inv (σ : LStore) (hI : IndexInvStrong σ) :
    IndexInvStrong (LocalStore.clearExpired σ).2 := by
  obtain ⟨hnS, hnU, hEnt⟩ := hI
  unfold LocalStore.clearExpired
  refine ⟨nodup_keysA_of_sublist (List.filter_sublist _) hnS,
    nodup_keysA_of_sublist (foldl_eraseA_sublist _ _) hnU, ?_⟩
  intro p hp
  obtain ⟨h₁, h₂⟩ := mem_foldl_eraseA hnU hp
  obtain ⟨hne, hlc⟩ := hEnt p h₁
  refine ⟨hne, ?_⟩
  cases hmap : lookupA σ.sessions p.2 with
  | none => rw [hmap] at hlc; exact absurd hlc (by simp)
  | some t =>
    rw [hmap] at hlc
    simp only [Option.map_some'] at hlc
    injection hlc with hlc
    have hmem : (p.2, t) ∈ σ.sessions := lookupA_mem hmap
    have hkeep : ¬ t.expires_at < σ.now := by
      intro hexp
      have hin : (p.2, t) ∈ σ.sessions.filter
          (fun e => decide (e.2.expires_at < σ.now)) :=
        List.mem_filter.mpr ⟨hmem, by simpa using hexp⟩
      rcases h₂ (p.2, t) hin with h | h
      · simp only at h
        exact hne (by rw [← hlc, h])
      · simp only at h
        exact h hlc
    have hkm : (p.2, t) ∈ σ.sessions.filter
        (fun e => decide (¬ e.2.expires_at < σ.now)) :=
      List.mem_filter.mpr ⟨hmem, by simpa using hkeep⟩
    have hlk : lookupA (σ.sessions.filter
        (fun e => decide (¬ e.2.expires_at < σ.now))) p.2 = some t :=
      lookupA_of_mem_nodup
        (nodup_keysA_of_sublist (List.filter_sublist _) hnS) hkm
    rw [hlk]
    simp [hlc]

/-- C10 counterexample: starting from the empty store, saving a session with
id A owned by u1 and then re-saving id A owned by u2 yields a state where the
owner index aliases u1 and u2 to A and the claimed invariant holds; delete of
A then removes only the u2 index entry together with the record, leaving the
dangling entry u1 to A, so delete does not preserve the claimed invariant. -/
theorem delete_breaks_claimed_invariant :
    IndexInv lstoreAliased ∧ ¬ IndexInv (LocalStore.delete "A" lstoreAliased) := by
  decide

/-- C10 (amended): under the preconditions that update never changes a
session user_id and that save never re-saves an existing session id under a
different owner, every storage operation of the owner-indexed local backend
preserves the strengthened invariant (unique keys in both maps, and every
index entry has a truthy owner and points to a stored session owned by
exactly that owner); the strengthened invariant implies the claimed one, and
the repair branch of getActiveForUser that deletes a dangling index entry is
unreachable from states satisfying it. -/
theorem storage_ops_preserve_strong_inv (σ : LStore) (hI : IndexInvStrong σ) :
    strongInvPreserved σ := by
  refine ⟨fun s hc => save_preserves_inv s σ hI hc,
          fun u => getActiveForUser_preserves_inv u σ hI,
          fun id u hc => update_preserves_inv id u σ hI hc,
          fun id => hI,
          fun id => delete_preserves_inv id σ hI,
          clearExpired_preserves_inv σ hI,
          ?_, ?_⟩
  · intro p hp
    obtain ⟨_, hlc⟩ := hI.2.2 p hp
    cases hmap : lookupA σ.sessions p.2 with
    | none => rw [hmap] at hlc; exact absurd hlc (by simp)
    | some t => simp [hmap]
  · intro u id hlu
    obtain ⟨_, hlc⟩ := hI.2.2 (u, id) (lookupA_mem hlu)
    cases hmap : lookupA σ.sessions id with
    | none => rw [hmap] at hlc; exact absurd hlc (by simp)
    | some t => simp [hmap]

/-- Witness for storage_ops_preserve_strong_inv at a concrete well-formed
owner-indexed store. -/
theorem storage_ops_preserve_strong_inv_witness :
    strongInvPreserved lstoreW :=
  storage_ops_preserve_strong_inv lstoreW (by decide)
